import Mathlib

/-!
Verification development for the otio-fcp7xml translator (Go).

The first half of this file is a shallow embedding of the repository's code:
the FCP7 XML schema model (model.go), the decoder (decoder.go) and the
encoder (encoder.go).  Go `int`/`int64` fields become `Int`; Go `float64`
becomes `ℚ` (the rate arithmetic of this repository stays far away from any
tolerance boundary, so exact rational arithmetic and IEEE double arithmetic
classify and truncate identically on every value the theorems touch);
Go pointer-optional fields become `Option`; Go struct zero values become
structure-field defaults.  The external OpenTimelineIO object model (the
`gotio` collaborator packages, which are not part of this repository) is
modelled from the specification's description of that API; each such
definition carries a doc comment starting with `Modelled from the spec:`.

The second half states and settles the claims about the code.
-/

/-! ## FCP7 schema model (source: model.go) -/

/-- Frame-rate element: integer timebase plus NTSC (drop-frame) flag. -/
structure Rate where
  timebase : Int := 0
  ntsc : Bool := false
deriving DecidableEq

/-- Timecode element (never consulted by decoder or encoder). -/
structure Timecode where
  rate : Rate := {}
  strVal : String := ""
  frame : Int := 0
  displayFormat : String := ""
deriving DecidableEq

/-- RGBA color as stored on markers. -/
structure Color where
  red : Int := 0
  green : Int := 0
  blue : Int := 0
  alpha : Int := 0
deriving DecidableEq

/-- Marker element of a clip, generator or sequence. -/
structure Marker where
  name : String := ""
  comment : String := ""
  inPoint : Int := 0
  outPoint : Int := 0
  color : Option Color := none
deriving DecidableEq

/-- Effect parameter.  The source fields ValueMin/ValueMax are float64
pointers, modelled as optional rationals. -/
structure Parameter where
  parameterID : String := ""
  name : String := ""
  value : String := ""
  valueID : String := ""
  valueMin : Option ℚ := none
  valueMax : Option ℚ := none
  valueList : String := ""
deriving DecidableEq

/-- Effect element.  The source fields StartRatio/EndRatio are renamed
`startRatioQ`/`endRatioQ` here. -/
structure Effect where
  name : String := ""
  effectID : String := ""
  effectType : String := ""
  mediaType : String := ""
  effectCategory : String := ""
  duration : Int := 0
  startRatioQ : Option ℚ := none
  endRatioQ : Option ℚ := none
  reverse : Option Bool := none
  parameter : List Parameter := []
deriving DecidableEq

/-- Filter element wrapping an effect (named Filter in the Go source;
renamed here to avoid the ambient Filter type). -/
structure FilterItem where
  enabled : Option Bool := none
  start : Int := 0
  endPos : Int := 0
  effect : Option Effect := none
deriving DecidableEq

/-- Sample characteristics of a file's media (never consulted). -/
structure SampleCharacteristics where
  rate : Option Rate := none
  width : Int := 0
  height : Int := 0
  anamorphicMode : String := ""
  pixelAspect : String := ""
  fieldDominance : String := ""
  depth : Int := 0
  sampleRate : Int := 0
  channels : Int := 0
deriving DecidableEq

/-- Video part of a file's media description (never consulted). -/
structure FileVideoPart where
  sampleCharacteristics : Option SampleCharacteristics := none
deriving DecidableEq

/-- Audio part of a file's media description (named FileAudio in the Go
source; never consulted). -/
structure FileAudioPart where
  sampleCharacteristics : Option SampleCharacteristics := none
deriving DecidableEq

/-- Media description inside a file reference (never consulted). -/
structure FileMedia where
  videoGrp : Option FileVideoPart := none
  audioGrp : Option FileAudioPart := none
deriving DecidableEq

/-- Media-file reference of a clip item. -/
structure File where
  id : String := ""
  name : String := ""
  pathURL : String := ""
  rate : Rate := {}
  duration : Int := 0
  timecode : Option Timecode := none
  media : Option FileMedia := none
deriving DecidableEq

/-- Source-track pointer of a clip item (never consulted). -/
structure SourceTrack where
  mediaType : String := ""
  trackIndex : Int := 0
deriving DecidableEq

/-- Color labels of a clip (never consulted). -/
structure Labels where
  label2 : String := ""
deriving DecidableEq

/-- A single clip comment (never consulted). -/
structure Comment where
  text : String := ""
deriving DecidableEq

/-- Comment container of a clip (never consulted). -/
structure Comments where
  comment : List Comment := []
deriving DecidableEq

/-- Link between clips (never consulted). -/
structure Link where
  linkClipRef : String := ""
  mediaType : String := ""
  trackIndex : Int := 0
deriving DecidableEq

/-- Nested sequence embedded in a clip item.  In the Go source this field
has the full `Sequence` type (a non-uniform recursion through ClipItem);
the decoder reads only its `Name` field and never descends further, so the
embedding keeps exactly the consulted field. -/
structure NestedSequence where
  name : String := ""
deriving DecidableEq

/-- Clip item of a track.  Source fields End/In/Out are renamed
`endPos`/`inPoint`/`outPoint` (Lean keywords). -/
structure ClipItem where
  id : String := ""
  name : String := ""
  enabled : Option Bool := none
  duration : Int := 0
  rate : Rate := {}
  start : Int := 0
  endPos : Int := 0
  inPoint : Int := 0
  outPoint : Int := 0
  file : Option File := none
  sequence : Option NestedSequence := none
  sourceTrack : Option SourceTrack := none
  labels : Option Labels := none
  comments : Option Comments := none
  link : List Link := []
  filter : List FilterItem := []
  effect : List Effect := []
  marker : List Marker := []
deriving DecidableEq

/-- Transition item of a track. -/
structure TransitionItem where
  name : String := ""
  rate : Rate := {}
  start : Int := 0
  endPos : Int := 0
  alignment : String := ""
  effect : Option Effect := none
deriving DecidableEq

/-- Generator item of a track (slug, color bars, ...). -/
structure GeneratorItem where
  name : String := ""
  duration : Int := 0
  rate : Rate := {}
  start : Int := 0
  endPos : Int := 0
  inPoint : Int := 0
  outPoint : Int := 0
  enabled : Option Bool := none
  anamorphic : Option Bool := none
  alphaType : String := ""
  effect : Option Effect := none
  filter : List FilterItem := []
  marker : List Marker := []
deriving DecidableEq

/-- A video or audio track: three separately stored item lists. -/
structure Track where
  enabled : Option Bool := none
  locked : Option Bool := none
  clipItem : List ClipItem := []
  transitionItem : List TransitionItem := []
  generatorItem : List GeneratorItem := []
deriving DecidableEq

/-- Video track container of a sequence's media. -/
structure Video where
  track : List Track := []
deriving DecidableEq

/-- Audio track container of a sequence's media (named Audio in the Go
source). -/
structure AudioGroup where
  track : List Track := []
deriving DecidableEq

/-- Media container: optional video and audio sub-containers. -/
structure Media where
  videoGrp : Option Video := none
  audioGrp : Option AudioGroup := none
deriving DecidableEq

/-- A sequence: name, optional duration, rate and media. -/
structure Sequence where
  name : String := ""
  duration : Int := 0
  rate : Rate := {}
  timecode : Timecode := {}
  media : Media := {}
  marker : List Marker := []
deriving DecidableEq

/-- Root element of an FCP7 document. -/
structure XMEML where
  version : String := ""
  sequence : List Sequence := []
deriving DecidableEq

/-! ## OpenTimelineIO model (external collaborator, modelled from the spec) -/

/-- Modelled from the spec: a rational time value of the external timeline
model — a value at a frame rate (opentime.RationalTime). -/
structure RationalTime where
  value : ℚ := 0
  rate : ℚ := 1
deriving DecidableEq

/-- Modelled from the spec: a time range — start time plus duration
(opentime.TimeRange). -/
structure TimeRange where
  startTime : RationalTime := {}
  duration : RationalTime := {}
deriving DecidableEq

/-- Modelled from the spec: rescaling a rational time to another rate
(used only by the modelled RationalTime.add below). -/
def RationalTime.rescaledTo (t : RationalTime) (r : ℚ) : RationalTime :=
  { value := t.value * r / t.rate, rate := r }

/-- Modelled from the spec: addition of rational times; the right operand is
rescaled to the left operand's rate (opentime Add). -/
def RationalTime.add (a b : RationalTime) : RationalTime :=
  { value := a.value + (b.rescaledTo a.rate).value, rate := a.rate }

/-- Modelled from the spec: one entry of the open metadata map
(opentimelineio.AnyDictionary values are Go `any`; the decoder and encoder
of this repository store exactly these shapes: booleans, strings, 64-bit
integers, floats, nested dictionaries, lists of dictionaries, and the
string-to-int color map). -/
inductive MetaValue where
  | b (v : Bool)
  | s (v : String)
  | i (v : Int)
  | q (v : ℚ)
  | dict (d : List (String × MetaValue))
  | dicts (l : List (List (String × MetaValue)))
  | intMap (m : List (String × Int))

/-- Modelled from the spec: the open string-keyed metadata map, as an
association list in insertion order (the code never writes a key twice
into the same dictionary, so lookup semantics agree with a Go map). -/
def AnyDictionary := List (String × MetaValue)

/-- Key lookup in a metadata dictionary (Go map indexing). -/
def AnyDictionary.lookup (d : AnyDictionary) (k : String) : Option MetaValue :=
  List.lookup k d

/-- Modelled from the spec: the polymorphic media reference of the timeline
model — external file / missing / generator / image sequence. -/
inductive MediaReference where
  | external (name : String) (targetURL : String)
      (availableRange : Option TimeRange)
  | missing (name : String) (availableRange : Option TimeRange)
  | generator (name : String) (generatorKind : String)
      (availableRange : Option TimeRange)
  | imageSeq (name : String) (targetURLBase : String)
      (prefixPart : String) (suffixPart : String)
      (startFrame : Int) (frameStep : Int) (rate : ℚ)
      (frameZeroPadding : Int) (availableRange : Option TimeRange)
      (metadata : AnyDictionary) (missingFramePolicy : String)

/-- The name carried by a media reference (MediaReference.Name()). -/
def MediaReference.refName : MediaReference → String
  | .external n _ _ => n
  | .missing n _ => n
  | .generator n _ _ => n
  | .imageSeq n _ _ _ _ _ _ _ _ _ _ => n

/-- Modelled from the spec: the available range carried by a media
reference, when present. -/
def MediaReference.availableRange : MediaReference → Option TimeRange
  | .external _ _ ar => ar
  | .missing _ ar => ar
  | .generator _ _ ar => ar
  | .imageSeq _ _ _ _ _ _ _ _ ar _ _ => ar

/-- True exactly on the external-file constructor (the Go type switch case
for *ExternalReference). -/
def MediaReference.isExternalRef : MediaReference → Bool
  | .external _ _ _ => true
  | _ => false

/-- True exactly on the missing-reference constructor (the Go type switch
case for *MissingReference). -/
def MediaReference.isMissingRef : MediaReference → Bool
  | .missing _ _ => true
  | _ => false

/-- Modelled from the spec: a marker of the timeline model. -/
structure OtioMarker where
  name : String := ""
  markedRange : TimeRange := {}
  color : String := ""
  comment : String := ""
  metadata : AnyDictionary := []

/-- The model's default marker color used by this decoder
(opentimelineio.MarkerColorGreen). -/
def markerColorGreen : String := "GREEN"

/-- Modelled from the spec: a clip of the timeline model — name, polymorphic
media reference, optional source range, metadata, markers, enabled flag. -/
structure Clip where
  name : String := ""
  mediaRef : Option MediaReference := none
  sourceRange : Option TimeRange := none
  metadata : AnyDictionary := []
  markers : List OtioMarker := []
  enabled : Bool := true

/-- Modelled from the spec: a gap of the timeline model, carrying only its
duration (opentimelineio.NewGapWithDuration). -/
structure Gap where
  duration : RationalTime := {}

/-- Modelled from the spec: a transition of the timeline model with incoming
and outgoing offsets around the cut point. -/
structure Transition where
  name : String := ""
  transitionType : String := ""
  inOffset : RationalTime := {}
  outOffset : RationalTime := {}
  metadata : AnyDictionary := []

/-- The transition type constant used by this decoder
(opentimelineio.TransitionTypeCustom). -/
def transitionTypeCustom : String := "Custom_Transition"

/-- Modelled from the spec: the polymorphic track child of the timeline
model.  The spec documents that clip, gap and transition are the only item
kinds that currently exist. -/
inductive Composable where
  | clip (c : Clip)
  | gap (g : Gap)
  | transition (t : Transition)

/-- Modelled from the spec: a track of the timeline model — kind (video or
audio), ordered children, enabled flag. -/
structure OtioTrack where
  name : String := ""
  kind : String := ""
  children : List Composable := []
  enabled : Bool := true

/-- Track kind constant (opentimelineio.TrackKindVideo). -/
def trackKindVideo : String := "Video"

/-- Track kind constant (opentimelineio.TrackKindAudio). -/
def trackKindAudio : String := "Audio"

/-- Modelled from the spec: a timeline — a name and a stack of tracks (the
children of Timeline.Tracks(), in append order). -/
structure Timeline where
  name : String := ""
  tracks : List OtioTrack := []

/-- Modelled from the spec: Timeline.VideoTracks() — the tracks of video
kind, in stack order. -/
def Timeline.videoTracks (tl : Timeline) : List OtioTrack :=
  tl.tracks.filter (fun t => t.kind = trackKindVideo)

/-- Modelled from the spec: Timeline.AudioTracks() — the tracks of audio
kind, in stack order. -/
def Timeline.audioTracks (tl : Timeline) : List OtioTrack :=
  tl.tracks.filter (fun t => t.kind = trackKindAudio)

/-- Modelled from the spec: Clip.Duration() — the duration of the source
range when one is set, otherwise the duration of the media reference's
available range; `none` models the error return when a clip has neither
(the spec's DurationUnavailable condition). -/
def Clip.duration (c : Clip) : Option RationalTime :=
  match c.sourceRange with
  | some sr => some sr.duration
  | none =>
    match c.mediaRef with
    | some ref => (ref.availableRange).map (fun ar => ar.duration)
    | none => none

/-- Modelled from the spec: Clip.AvailableRange() — the media reference's
available range; `none` models the error return when it is absent. -/
def Clip.availableRangeOf (c : Clip) : Option TimeRange :=
  match c.mediaRef with
  | some ref => ref.availableRange
  | none => none

/-- Modelled from the spec: the time a track child occupies on its track —
a clip's duration, a gap's duration, and zero for a transition (transitions
overlap their neighbours and consume no track time in the model). -/
def Composable.durationQ : Composable → Option RationalTime
  | .clip c => c.duration
  | .gap g => some g.duration
  | .transition _ => some {}

/-- Modelled from the spec: the duration of a track — the sum of its
children's durations (`none` when some clip's duration is unavailable). -/
def OtioTrack.durationRT (t : OtioTrack) : Option RationalTime :=
  t.children.foldl
    (fun acc child => do
      let a ← acc
      let d ← child.durationQ
      pure (RationalTime.add a d))
    (some { value := 0, rate := 24 })

/-- Modelled from the spec: Timeline.Duration() — the model timeline's total
duration: the longest track duration (in seconds), `none` on the error
path when some track's duration is unavailable. -/
def Timeline.durationRT (tl : Timeline) : Option RationalTime :=
  tl.tracks.foldl
    (fun acc t => do
      let a ← acc
      let d ← t.durationRT
      pure (if d.value / d.rate > a.value / a.rate then d else a))
    (some { value := 0, rate := 24 })

/-! ## Shared helpers (source: encoder.go, decoder.go) -/

/-- Go's `int64(x)` / `int(x)` conversion from a float: truncation toward
zero, on the rational model — the ceiling of a negative value and the
floor of a nonnegative one. -/
def truncQ (q : ℚ) : Int := if q < 0 then ⌈q⌉ else ⌊q⌋

/-- abs (encoder.go): the source's own absolute-value helper. -/
def absQ (x : ℚ) : ℚ := if x < 0 then -x else x

/-- rateToFrameRate (decoder.go): effective fps of a schema rate — the
timebase, times 1000/1001 when the NTSC flag is set. -/
def rateToFrameRate (rate : Rate) : ℚ :=
  let frameRate : ℚ := (rate.timebase : ℚ)
  if rate.ntsc then frameRate * 1000 / 1001 else frameRate

/-- isNTSCRate (encoder.go): a frame rate is NTSC when it is within 0.01 of
one of the three canonical NTSC rates 24000/1001, 30000/1001, 60000/1001
(the Go source spells them as float literals). -/
def isNTSCRate (rate : ℚ) : Bool :=
  [(24000 : ℚ) / 1001, (30000 : ℚ) / 1001, (60000 : ℚ) / 1001].any
    (fun ntsc => absQ (rate - ntsc) < 1 / 100)

/-- The keep test of sanitizeID's loop (encoder.go 687): ASCII letter,
digit, dash or underscore. -/
def sanitizeKeep (r : Char) : Bool :=
  decide (('a' ≤ r ∧ r ≤ 'z') ∨ ('A' ≤ r ∧ r ≤ 'Z') ∨ ('0' ≤ r ∧ r ≤ '9') ∨
    r = '-' ∨ r = '_')

/-- sanitizeID (encoder.go): keep ASCII letters, digits, dash and
underscore; turn each space into an underscore; drop everything else; an
empty result becomes "file".  The Go loop ranges over runes, mirrored here
by folding over the string's characters. -/
def sanitizeID (s : String) : String :=
  let result : List Char := s.data.foldl
    (fun acc r =>
      if sanitizeKeep r then acc ++ [r]
      else if r = ' ' then acc ++ ['_']
      else acc)
    []
  if result = [] then "file" else String.mk result

/-! ## Decoder (source: decoder.go) -/

/-- The missing-frame policy constant the decoder passes to image-sequence
references (opentimelineio.MissingFramePolicyError). -/
def missingFramePolicyError : String := "error"

/-- The hash-pattern scan of createMediaReference: a run of four hash
characters somewhere in the name (the Go loop compares the 4-byte window
name[i:i+4] with "####"; hash is a one-byte rune, so the byte scan and
this character scan agree). -/
def hasHashRun : List Char → Bool
  | '#' :: '#' :: '#' :: '#' :: _ => true
  | _ :: rest => hasHashRun rest
  | [] => false

/-- The printf-pattern scan of createMediaReference: some position with at
least five characters left where the window starts with a percent sign, a
digit follows, and the fourth or fifth character is a d (the Go loop over
byte index i with i+4 < len checks name[i]=='%', name[i+1] in '0'..'9',
name[i+3]=='d' or name[i+4]=='d'). -/
def hasPrintfPat : List Char → Bool
  | [] => false
  | c0 :: rest =>
    (match rest with
     | c1 :: _ :: c3 :: c4 :: _ =>
       if c0 = '%' ∧ ('0' ≤ c1 ∧ c1 ≤ '9') ∧ (c3 = 'd' ∨ c4 = 'd') then true
       else false
     | _ => false)
    || hasPrintfPat rest

/-- createMediaReference (decoder.go): available range [0, duration) at the
clip's rate; image-sequence classification from the two name-pattern scans;
otherwise a plain external reference to the path URL. -/
def Decoder.createMediaReference (file : File) (frameRate : ℚ) : MediaReference :=
  let availableRange : TimeRange :=
    { startTime := { value := 0, rate := frameRate },
      duration := { value := (file.duration : ℚ), rate := frameRate } }
  let name := file.name
  let pathURL := file.pathURL
  let isImageSequence := hasHashRun name.data || hasPrintfPat name.data
  if isImageSequence then
    let metadata : AnyDictionary := [("fcp7xml_file_id", MetaValue.s file.id)]
    MediaReference.imageSeq name pathURL "" "" 0 1 frameRate 4
      (some availableRange) metadata missingFramePolicyError
  else
    MediaReference.external name pathURL (some availableRange)

/-- parameterToMetadata (decoder.go): field-by-field lifting of a parameter;
absent optional fields are omitted. -/
def Decoder.parameterToMetadata (p : Parameter) : AnyDictionary :=
  (if p.parameterID ≠ "" then [("parameterid", MetaValue.s p.parameterID)] else []) ++
  (if p.name ≠ "" then [("name", MetaValue.s p.name)] else []) ++
  (if p.value ≠ "" then [("value", MetaValue.s p.value)] else []) ++
  (if p.valueID ≠ "" then [("valueid", MetaValue.s p.valueID)] else []) ++
  (match p.valueMin with | some v => [("valuemin", MetaValue.q v)] | none => []) ++
  (match p.valueMax with | some v => [("valuemax", MetaValue.q v)] | none => []) ++
  (if p.valueList ≠ "" then [("valuelist", MetaValue.s p.valueList)] else [])

/-- effectToMetadata (decoder.go): field-by-field lifting of an effect. -/
def Decoder.effectToMetadata (effect : Effect) : AnyDictionary :=
  [("name", MetaValue.s effect.name),
   ("effectid", MetaValue.s effect.effectID),
   ("effecttype", MetaValue.s effect.effectType),
   ("mediatype", MetaValue.s effect.mediaType)] ++
  (if effect.effectCategory ≠ "" then
    [("effectcategory", MetaValue.s effect.effectCategory)] else []) ++
  (if effect.duration > 0 then [("duration", MetaValue.i effect.duration)] else []) ++
  (match effect.startRatioQ with
   | some v => [("startratio", MetaValue.q v)] | none => []) ++
  (match effect.endRatioQ with
   | some v => [("endratio", MetaValue.q v)] | none => []) ++
  (match effect.reverse with
   | some v => [("reverse", MetaValue.b v)] | none => []) ++
  (if effect.parameter ≠ [] then
    [("parameters", MetaValue.dicts
        (effect.parameter.map Decoder.parameterToMetadata))] else [])

/-- effectsToMetadata (decoder.go). -/
def Decoder.effectsToMetadata (effects : List Effect) : List AnyDictionary :=
  effects.map Decoder.effectToMetadata

/-- One filter's entry of filtersToMetadata (decoder.go). -/
def Decoder.filterToMetadata (f : FilterItem) : AnyDictionary :=
  (match f.enabled with | some v => [("enabled", MetaValue.b v)] | none => []) ++
  (if f.start > 0 then [("start", MetaValue.i f.start)] else []) ++
  (if f.endPos > 0 then [("end", MetaValue.i f.endPos)] else []) ++
  (match f.effect with
   | some e => [("effect", MetaValue.dict (Decoder.effectToMetadata e))]
   | none => [])

/-- filtersToMetadata (decoder.go). -/
def Decoder.filtersToMetadata (filters : List FilterItem) : List AnyDictionary :=
  filters.map Decoder.filterToMetadata

/-- convertMarker (decoder.go): range [in, out-in) at the containing item's
rate; comment and vendor color stashed in metadata; model color is the
fixed green default. -/
def Decoder.convertMarker (m : Marker) (frameRate : ℚ) : OtioMarker :=
  let markedRange : TimeRange :=
    { startTime := { value := (m.inPoint : ℚ), rate := frameRate },
      duration := { value := ((m.outPoint - m.inPoint : Int) : ℚ), rate := frameRate } }
  let metadata : AnyDictionary :=
    (if m.comment ≠ "" then [("comment", MetaValue.s m.comment)] else []) ++
    (match m.color with
     | some c => [("fcp7xml_color", MetaValue.intMap
         [("red", c.red), ("green", c.green), ("blue", c.blue), ("alpha", c.alpha)])]
     | none => [])
  { name := m.name, markedRange := markedRange, color := markerColorGreen,
    comment := m.comment, metadata := metadata }

/-- convertClipItem (decoder.go): effective rate from the item's own rate
element; a nested sequence degrades to a placeholder clip (missing media,
metadata flags, and the default enabled state — the Go code returns before
the enabled check); otherwise media classification, metadata lifting,
marker translation and the enabled flag. -/
def Decoder.convertClipItem (item : ClipItem) (_sequenceRate : Rate) : Composable :=
  let rate := item.rate
  let frameRate : ℚ :=
    if rate.ntsc then (rate.timebase : ℚ) * 1000 / 1001 else (rate.timebase : ℚ)
  match item.sequence with
  | some seq =>
    let sourceRange : TimeRange :=
      { startTime := { value := (item.inPoint : ℚ), rate := frameRate },
        duration := { value := ((item.outPoint - item.inPoint : Int) : ℚ), rate := frameRate } }
    let metadata : AnyDictionary :=
      [("fcp7xml_nested_sequence", MetaValue.b true),
       ("fcp7xml_sequence_name", MetaValue.s seq.name)]
    Composable.clip
      { name := item.name, mediaRef := some (MediaReference.missing "" none),
        sourceRange := some sourceRange, metadata := metadata,
        markers := [], enabled := true }
  | none =>
    let sourceRange : TimeRange :=
      { startTime := { value := (item.inPoint : ℚ), rate := frameRate },
        duration := { value := ((item.outPoint - item.inPoint : Int) : ℚ), rate := frameRate } }
    let mediaRef : MediaReference :=
      match item.file with
      | some f =>
        if f.pathURL ≠ "" then Decoder.createMediaReference f frameRate
        else MediaReference.missing "" none
      | none => MediaReference.missing "" none
    let metadata : AnyDictionary :=
      (if item.id ≠ "" then [("fcp7xml_id", MetaValue.s item.id)] else []) ++
      (if item.effect ≠ [] then
        [("fcp7xml_effects", MetaValue.dicts
            (Decoder.effectsToMetadata item.effect))] else []) ++
      (if item.filter ≠ [] then
        [("fcp7xml_filters", MetaValue.dicts
            (Decoder.filtersToMetadata item.filter))] else [])
    let markers := item.marker.map (fun m => Decoder.convertMarker m frameRate)
    let enabled := !(item.enabled == some false)
    Composable.clip
      { name := item.name, mediaRef := some mediaRef,
        sourceRange := some sourceRange, metadata := metadata,
        markers := markers, enabled := enabled }

/-- convertTransition (decoder.go): duration end-start at the item's rate,
split into two equal halves; alignment and effect preserved as metadata. -/
def Decoder.convertTransition (item : TransitionItem) (_sequenceRate : Rate) : Transition :=
  let frameRate := rateToFrameRate item.rate
  let metadata : AnyDictionary :=
    [("fcp7xml_alignment", MetaValue.s item.alignment)] ++
    (match item.effect with
     | some e => [("fcp7xml_effect", MetaValue.dict (Decoder.effectToMetadata e))]
     | none => [])
  let halfDuration : RationalTime :=
    { value := ((item.endPos - item.start : Int) : ℚ) / 2, rate := frameRate }
  { name := item.name, transitionType := transitionTypeCustom,
    inOffset := halfDuration, outOffset := halfDuration, metadata := metadata }

/-- convertGenerator (decoder.go): a clip whose media reference is a named
generator reference; duration/in define its source range; a boolean
metadata flag marks it generator-derived. -/
def Decoder.convertGenerator (item : GeneratorItem) (_sequenceRate : Rate) : Clip :=
  let frameRate := rateToFrameRate item.rate
  let sourceRange : TimeRange :=
    { startTime := { value := (item.inPoint : ℚ), rate := frameRate },
      duration := { value := (item.duration : ℚ), rate := frameRate } }
  let metadata : AnyDictionary :=
    [("fcp7xml_generator", MetaValue.b true),
     ("fcp7xml_generator_name", MetaValue.s item.name)] ++
    (match item.effect with
     | some e => [("fcp7xml_effect", MetaValue.dict (Decoder.effectToMetadata e))]
     | none => []) ++
    (if item.filter ≠ [] then
      [("fcp7xml_filters", MetaValue.dicts
          (Decoder.filtersToMetadata item.filter))] else [])
  let markers := item.marker.map (fun m => Decoder.convertMarker m frameRate)
  let mediaRef := MediaReference.generator item.name item.name none
  { name := item.name, mediaRef := some mediaRef,
    sourceRange := some sourceRange, metadata := metadata,
    markers := markers, enabled := !(item.enabled == some false) }

/-- The tagged track item of decoder.go's convertTrack (struct trackItem):
one of the three schema item kinds, carrying its start. -/
inductive FcpTrackItem where
  | clip (c : ClipItem)
  | transition (t : TransitionItem)
  | generator (g : GeneratorItem)
deriving DecidableEq

/-- The start position recorded for a collected track item. -/
def FcpTrackItem.start : FcpTrackItem → Int
  | .clip c => c.start
  | .transition t => t.start
  | .generator g => g.start

/-- The collection phase of convertTrack (decoder.go 94-119): all clip
items, then all transition items, then all generator items, in file
order. -/
def trackItems (t : Track) : List FcpTrackItem :=
  t.clipItem.map FcpTrackItem.clip ++
    t.transitionItem.map FcpTrackItem.transition ++
    t.generatorItem.map FcpTrackItem.generator

/-- One pass of the inner loop of convertTrack's sort (decoder.go 122-128)
for a fixed outer index i: the accumulator x is the value currently in
slot i; each slot j to its right whose value is smaller swaps with slot i.
The result is the final slot-i value (the minimum) together with the
updated right-of-i suffix. -/
def selectPass (x : FcpTrackItem) :
    List FcpTrackItem → FcpTrackItem × List FcpTrackItem
  | [] => (x, [])
  | y :: ys =>
    if y.start < x.start then
      let r := selectPass y ys
      (r.1, x :: r.2)
    else
      let r := selectPass x ys
      (r.1, y :: r.2)

/-- The outer loop of convertTrack's sort, with the remaining outer
iteration count as fuel (the loop body preserves the suffix length, so the
fuel used below never runs out early). -/
def exchangeSortF : Nat → List FcpTrackItem → List FcpTrackItem
  | 0, l => l
  | _ + 1, [] => []
  | n + 1, x :: xs =>
    let r := selectPass x xs
    r.1 :: exchangeSortF n r.2

/-- The in-place exchange sort of convertTrack (decoder.go 121-128),
ascending by start. -/
def exchangeSort (l : List FcpTrackItem) : List FcpTrackItem :=
  exchangeSortF l.length l

/-- The per-item dispatch of convertTrack's final loop (decoder.go
130-160): clips and generators become model clips, transitions become
model transitions. -/
def Decoder.itemToComposable (rate : Rate) : FcpTrackItem → Composable
  | .clip c => Decoder.convertClipItem c rate
  | .transition t => Composable.transition (Decoder.convertTransition t rate)
  | .generator g => Composable.clip (Decoder.convertGenerator g rate)

/-- convertTrack (decoder.go): named "kind index+1", enabled unless the
schema flag is explicitly false; children are the collected items sorted by
the exchange sort and converted in order (AppendChild of the external model
is modelled as list append). -/
def Decoder.convertTrack (fcpTrack : Track) (rate : Rate) (kind : String)
    (index : Nat) : OtioTrack :=
  let trackName := kind ++ " " ++ toString (index + 1)
  let enabled := !(fcpTrack.enabled == some false)
  let items := exchangeSort (trackItems fcpTrack)
  { name := trackName, kind := kind,
    children := items.map (Decoder.itemToComposable rate), enabled := enabled }

/-- convertSequence (decoder.go): video tracks then audio tracks, each in
file order, converted with the sequence rate and 0-based index. -/
def Decoder.convertSequence (seq : Sequence) : Timeline :=
  let videoTracks :=
    match seq.media.videoGrp with
    | some v => v.track.mapIdx
        (fun i t => Decoder.convertTrack t seq.rate trackKindVideo i)
    | none => []
  let audioTracks :=
    match seq.media.audioGrp with
    | some a => a.track.mapIdx
        (fun i t => Decoder.convertTrack t seq.rate trackKindAudio i)
    | none => []
  { name := seq.name, tracks := videoTracks ++ audioTracks }

/-- The decoder's two document-level failure conditions. -/
inductive DecodeError where
  | malformedDocument
  | noSequenceFound
deriving DecidableEq

/-- Decode (decoder.go): the input is the result of the external XML
tokenizer (Modelled from the spec: the tokenizer is an external
collaborator; `none` models a stream it rejects as not well-formed).  A
parse failure is the MalformedDocument condition, an empty sequence list
the NoSequenceFound condition; otherwise only the first sequence is
translated. -/
def Decoder.decode (parsed : Option XMEML) : Except DecodeError Timeline :=
  match parsed with
  | none => Except.error DecodeError.malformedDocument
  | some xmeml =>
    match xmeml.sequence with
    | [] => Except.error DecodeError.noSequenceFound
    | seq :: _ => Except.ok (Decoder.convertSequence seq)

/-! ## Encoder (source: encoder.go) -/

/-- The encoder's failure conditions (the Go source wraps them as error
strings; the constructors name the conditions). -/
inductive EncodeError where
  | nilTimeline
  | availableRangeUnavailable
  | clipDurationUnavailable
  | timelineDurationUnavailable
deriving DecidableEq

/-- isFileURL (encoder.go): whether the string parses as a URL with scheme
"file".  The net/url parser is external; modelled as the scheme-prefix
test, which agrees with it on every URL and path this encoder emits. -/
def isFileURL (s : String) : Bool := s.startsWith "file:"

/-- Modelled from the spec: the conversion of a bare file path to a
file:// URL in convertMediaReference (the source resolves the absolute
path via filepath.Abs, which is process state outside the embedding; no
claim consults the resulting URL text). -/
def fileURLOfPath (s : String) : String := "file://" ++ s

/-- convertMediaReference (encoder.go): a file reference named after the
model reference, id "file-" plus the sanitized name, and always the
sequence working rate.  An external reference contributes its target URL
(made a file:// URL when it is not one) and its available-range duration;
every other reference kind — missing or otherwise — leaves the path URL
empty.  This function has no failure path. -/
def Encoder.convertMediaReference (ref : MediaReference) (rate : Rate) : File :=
  let fileID := "file-" ++ sanitizeID ref.refName
  let file : File := { id := fileID, name := ref.refName, rate := rate }
  match ref with
  | .external _ targetURL ar =>
    let fileWithURL :=
      if targetURL ≠ "" then
        { file with pathURL :=
            if isFileURL targetURL then targetURL else fileURLOfPath targetURL }
      else file
    (match ar with
     | some r => { fileWithURL with duration := truncQ r.duration.value }
     | none => fileWithURL)
  | .missing _ _ => { file with pathURL := "" }
  | _ => { file with pathURL := "" }

/-- metadataToParameter (encoder.go): each field restored when its key holds
a value of the asserted shape, the zero value otherwise. -/
def Encoder.metadataToParameter (metadata : AnyDictionary) : Parameter :=
  { parameterID := match List.lookup "parameterid" metadata with
      | some (MetaValue.s v) => v | _ => ""
  , name := match List.lookup "name" metadata with
      | some (MetaValue.s v) => v | _ => ""
  , value := match List.lookup "value" metadata with
      | some (MetaValue.s v) => v | _ => ""
  , valueID := match List.lookup "valueid" metadata with
      | some (MetaValue.s v) => v | _ => ""
  , valueMin := match List.lookup "valuemin" metadata with
      | some (MetaValue.q v) => some v | _ => none
  , valueMax := match List.lookup "valuemax" metadata with
      | some (MetaValue.q v) => some v | _ => none
  , valueList := match List.lookup "valuelist" metadata with
      | some (MetaValue.s v) => v | _ => "" }

/-- metadataToEffect (encoder.go). -/
def Encoder.metadataToEffect (metadata : AnyDictionary) : Effect :=
  { name := match List.lookup "name" metadata with
      | some (MetaValue.s v) => v | _ => ""
  , effectID := match List.lookup "effectid" metadata with
      | some (MetaValue.s v) => v | _ => ""
  , effectType := match List.lookup "effecttype" metadata with
      | some (MetaValue.s v) => v | _ => ""
  , mediaType := match List.lookup "mediatype" metadata with
      | some (MetaValue.s v) => v | _ => ""
  , effectCategory := match List.lookup "effectcategory" metadata with
      | some (MetaValue.s v) => v | _ => ""
  , duration := match List.lookup "duration" metadata with
      | some (MetaValue.i v) => v | _ => 0
  , startRatioQ := match List.lookup "startratio" metadata with
      | some (MetaValue.q v) => some v | _ => none
  , endRatioQ := match List.lookup "endratio" metadata with
      | some (MetaValue.q v) => some v | _ => none
  , reverse := match List.lookup "reverse" metadata with
      | some (MetaValue.b v) => some v | _ => none
  , parameter := match List.lookup "parameters" metadata with
      | some (MetaValue.dicts l) => l.map Encoder.metadataToParameter | _ => [] }

/-- metadataToEffects (encoder.go). -/
def Encoder.metadataToEffects (metadataArray : List AnyDictionary) : List Effect :=
  metadataArray.map Encoder.metadataToEffect

/-- metadataToFilters (encoder.go). -/
def Encoder.metadataToFilters (metadataArray : List AnyDictionary) : List FilterItem :=
  metadataArray.map (fun meta =>
    { enabled := match List.lookup "enabled" meta with
        | some (MetaValue.b v) => some v | _ => none
    , start := match List.lookup "start" meta with
        | some (MetaValue.i v) => v | _ => 0
    , endPos := match List.lookup "end" meta with
        | some (MetaValue.i v) => v | _ => 0
    , effect := match List.lookup "effect" meta with
        | some (MetaValue.dict d) => some (Encoder.metadataToEffect d)
        | _ => none })

/-- convertMarkerToFCP (encoder.go): frame in/out from the marked range;
the vendor color restored from metadata when present (a missing component
of the color map reads as the Go map zero value). -/
def Encoder.convertMarkerToFCP (marker : OtioMarker) : Marker :=
  let markedRange := marker.markedRange
  let inPoint := truncQ markedRange.startTime.value
  let outPoint := inPoint + truncQ markedRange.duration.value
  { name := marker.name, comment := marker.comment,
    inPoint := inPoint, outPoint := outPoint,
    color := match List.lookup "fcp7xml_color" marker.metadata with
      | some (MetaValue.intMap cm) =>
        some { red := (List.lookup "red" cm).getD 0,
               green := (List.lookup "green" cm).getD 0,
               blue := (List.lookup "blue" cm).getD 0,
               alpha := (List.lookup "alpha" cm).getD 0 }
      | _ => none }

/-- The source-range resolution at the top of convertClip (encoder.go):
the clip's source range, or its available range when none is set, or the
failure the spec calls DurationUnavailable. -/
def Encoder.clipSourceRange (clip : Clip) : Except EncodeError TimeRange :=
  match clip.sourceRange with
  | some sr => Except.ok sr
  | none =>
    match clip.availableRangeOf with
    | some ar => Except.ok ar
    | none => Except.error EncodeError.availableRangeUnavailable

/-- convertClip (encoder.go): source range (or available range when none)
gives in/out/duration; position fields come from the cursor; enabled is
always written; id/effects/filters restored from metadata; markers and the
media reference converted. -/
def Encoder.convertClip (clip : Clip) (rate : Rate) (startPosition : Int) :
    Except EncodeError ClipItem :=
  (Encoder.clipSourceRange clip).map (fun sourceRange =>
    let inPoint := truncQ sourceRange.startTime.value
    let outPoint := inPoint + truncQ sourceRange.duration.value
    let duration := truncQ sourceRange.duration.value
    { name := clip.name, duration := duration, rate := rate,
      start := startPosition, endPos := startPosition + duration,
      inPoint := inPoint, outPoint := outPoint,
      enabled := some clip.enabled,
      id := match List.lookup "fcp7xml_id" clip.metadata with
        | some (MetaValue.s v) => v | _ => "",
      effect := match List.lookup "fcp7xml_effects" clip.metadata with
        | some (MetaValue.dicts l) => Encoder.metadataToEffects l | _ => [],
      filter := match List.lookup "fcp7xml_filters" clip.metadata with
        | some (MetaValue.dicts l) => Encoder.metadataToFilters l | _ => [],
      marker := clip.markers.map Encoder.convertMarkerToFCP,
      file := clip.mediaRef.map (fun ref => Encoder.convertMediaReference ref rate) })

/-- convertToGenerator (encoder.go): `some` exactly when the metadata maps
"fcp7xml_generator" to boolean true AND the clip's duration resolves; the
item takes the cursor position, the clip's duration, in/out from the
source range, and always an explicit enabled flag. -/
def Encoder.convertToGenerator (clip : Clip) (rate : Rate) (startPosition : Int) :
    Option GeneratorItem :=
  match List.lookup "fcp7xml_generator" clip.metadata with
  | some (MetaValue.b true) =>
    match clip.duration with
    | some dur =>
      let duration := truncQ dur.value
      let inPoint : Int :=
        match clip.sourceRange with
        | some sr => truncQ sr.startTime.value
        | none => 0
      let outPoint := inPoint + duration
      some
        { name := clip.name, duration := duration, rate := rate,
          start := startPosition, endPos := startPosition + duration,
          inPoint := inPoint, outPoint := outPoint,
          enabled := some clip.enabled,
          effect := match List.lookup "fcp7xml_effect" clip.metadata with
            | some (MetaValue.dict d) => some (Encoder.metadataToEffect d)
            | _ => none,
          filter := match List.lookup "fcp7xml_filters" clip.metadata with
            | some (MetaValue.dicts l) => Encoder.metadataToFilters l | _ => [],
          marker := clip.markers.map Encoder.convertMarkerToFCP }
    | none => none
  | _ => none

/-- convertTransitionToItem (encoder.go): cursor position, duration from
the two offsets, alignment "center" unless metadata restores one, effect
restored from metadata.  This function has no failure path. -/
def Encoder.convertTransitionToItem (trans : Transition) (rate : Rate)
    (startPosition : Int) : TransitionItem :=
  let duration := trans.inOffset.add trans.outOffset
  let durationFrames := truncQ duration.value
  let base : TransitionItem :=
    { name := trans.name, rate := rate, start := startPosition,
      endPos := startPosition + durationFrames, alignment := "center" }
  let withAlignment :=
    match List.lookup "fcp7xml_alignment" trans.metadata with
    | some (MetaValue.s a) => { base with alignment := a }
    | _ => base
  match List.lookup "fcp7xml_effect" trans.metadata with
  | some (MetaValue.dict d) =>
    { withAlignment with effect := some (Encoder.metadataToEffect d) }
  | _ => withAlignment

/-- The child loop of the encoder's convertTrack (encoder.go 487-533): an
accumulating cursor of absolute position; a clip goes to the generator list
when convertToGenerator accepts it and to the clip list otherwise, and
advances the cursor by its duration; a transition is emitted at the cursor
and advances it by the offset sum; a gap advances the cursor by its
duration and emits nothing (the modelled gap always carries its duration,
so the source's error check on it cannot fire). -/
def Encoder.convertChildren (rate : Rate) :
    List Composable → Int → Track → Except EncodeError Track
  | [], _, acc => Except.ok acc
  | child :: rest, currentPosition, acc =>
    match child with
    | Composable.clip item =>
      (match Encoder.convertToGenerator item rate currentPosition with
       | some genItem =>
         match item.duration with
         | some dur =>
           Encoder.convertChildren rate rest (currentPosition + truncQ dur.value)
             { acc with generatorItem := acc.generatorItem ++ [genItem] }
         | none => Except.error EncodeError.clipDurationUnavailable
       | none =>
         match Encoder.convertClip item rate currentPosition with
         | Except.error e => Except.error e
         | Except.ok clipItem =>
           match item.duration with
           | some dur =>
             Encoder.convertChildren rate rest (currentPosition + truncQ dur.value)
               { acc with clipItem := acc.clipItem ++ [clipItem] }
           | none => Except.error EncodeError.clipDurationUnavailable)
    | Composable.transition item =>
      let transItem := Encoder.convertTransitionToItem item rate currentPosition
      let dur := item.inOffset.add item.outOffset
      Encoder.convertChildren rate rest (currentPosition + truncQ dur.value)
        { acc with transitionItem := acc.transitionItem ++ [transItem] }
    | Composable.gap item =>
      Encoder.convertChildren rate rest
        (currentPosition + truncQ item.duration.value) acc

/-- convertTrack (encoder.go): empty item lists, an always-written enabled
flag, and the child loop from cursor position zero. -/
def Encoder.convertTrack (track : OtioTrack) (rate : Rate) :
    Except EncodeError Track :=
  Encoder.convertChildren rate track.children 0
    { enabled := some track.enabled, locked := none,
      clipItem := [], transitionItem := [], generatorItem := [] }

/-- The working-rate scan of convertTimeline (encoder.go 386-402): walk the
timeline's tracks in stack order; the first track whose FIRST child is a
clip with a resolvable, positive-rate duration contributes that rate (and
its NTSC classification); default 24 fps, non-NTSC. -/
def Encoder.pickRateScan : List OtioTrack → ℚ × Bool
  | [] => (24, false)
  | track :: rest =>
    match track.children with
    | Composable.clip clip :: _ =>
      (match clip.duration with
       | some dur =>
         if dur.rate > 0 then (dur.rate, isNTSCRate dur.rate)
         else Encoder.pickRateScan rest
       | none => Encoder.pickRateScan rest)
    | _ => Encoder.pickRateScan rest

/-- The working rate of an encode: the pair chosen by the scan. -/
def Encoder.pickRate (tl : Timeline) : ℚ × Bool :=
  Encoder.pickRateScan tl.tracks

/-- The timebase computation of convertTracks (encoder.go 418-422): round
fps times 1001/1000 for an NTSC rate, integer truncation otherwise. -/
def Encoder.timebaseOf (frameRate : ℚ) (isNTSC : Bool) : Int :=
  if isNTSC then truncQ (frameRate * 1001 / 1000 + 1 / 2) else truncQ frameRate

/-- The per-group track loop of convertTracks (encoder.go 444-467): each
model track converted in order, the first failure aborting the encode. -/
def Encoder.convertTrackList (rate : Rate) :
    List OtioTrack → Except EncodeError (List Track)
  | [] => Except.ok []
  | t :: ts =>
    match Encoder.convertTrack t rate with
    | Except.error e => Except.error e
    | Except.ok ft =>
      match Encoder.convertTrackList rate ts with
      | Except.error e => Except.error e
      | Except.ok fts => Except.ok (ft :: fts)

/-- convertTracks (encoder.go): the emitted timebase (round for NTSC,
truncate otherwise), the sequence duration from the timeline duration, and
both track groups, each omitted when empty. -/
def Encoder.convertTracks (timeline : Timeline) (frameRate : ℚ) (isNTSC : Bool) :
    Except EncodeError Sequence :=
  let rate : Rate := { timebase := Encoder.timebaseOf frameRate isNTSC, ntsc := isNTSC }
  match timeline.durationRT with
  | none => Except.error EncodeError.timelineDurationUnavailable
  | some duration =>
    let durationFrames := truncQ duration.value
    match Encoder.convertTrackList rate timeline.videoTracks with
    | Except.error e => Except.error e
    | Except.ok videoTracks =>
      match Encoder.convertTrackList rate timeline.audioTracks with
      | Except.error e => Except.error e
      | Except.ok audioTracks =>
        Except.ok
          { name := timeline.name, duration := durationFrames, rate := rate,
            media :=
              { videoGrp :=
                  if videoTracks ≠ [] then some { track := videoTracks } else none,
                audioGrp :=
                  if audioTracks ≠ [] then some { track := audioTracks } else none } }

/-- convertTimeline (encoder.go): one working rate for the whole document,
then the sequence. -/
def Encoder.convertTimeline (timeline : Timeline) : Except EncodeError XMEML :=
  let pair := Encoder.pickRate timeline
  match Encoder.convertTracks timeline pair.1 pair.2 with
  | Except.error e => Except.error e
  | Except.ok sequence => Except.ok { version := "5", sequence := [sequence] }

/-- Encode (encoder.go): nil timeline is the NilTimeline condition;
otherwise the schema tree (the XML header, DOCTYPE and serialization are
byte output outside the schema model). -/
def Encoder.encode (timeline : Option Timeline) : Except EncodeError XMEML :=
  match timeline with
  | none => Except.error EncodeError.nilTimeline
  | some tl => Encoder.convertTimeline tl

/-- The schema rate the encoder derives from the working-rate pair (the
timebase computation of convertTracks applied to the scan's choice). -/
def Encoder.workingRate (tl : Timeline) : Rate :=
  let pair := Encoder.pickRate tl
  { timebase := Encoder.timebaseOf pair.1 pair.2, ntsc := pair.2 }

/-- The rate classification and timebase emission applied to a bare fps
value: NTSC classification by isNTSCRate, emitted timebase round(fps ×
1001/1000) when NTSC and integer truncation otherwise (convertTimeline
393-395 with convertTracks 418-427). -/
def encodeRateOfFps (fps : ℚ) : Rate :=
  let n := isNTSCRate fps
  { timebase := Encoder.timebaseOf fps n, ntsc := n }

/-! ## Claim-side definitions and concrete inputs -/

/-- Claim-side definition (spec wording for the ordering claim): the stable
insertion of an item into a list already sorted by ascending start.  The
inserted item precedes everything of the sorted input in the original
order, so it goes before the first element whose start is not smaller —
ties keep the input order. -/
def stableInsert (x : FcpTrackItem) : List FcpTrackItem → List FcpTrackItem
  | [] => [x]
  | y :: ys => if x.start ≤ y.start then x :: y :: ys else y :: stableInsert x ys

/-- Claim-side definition (spec wording for the ordering claim): the stable
sort by ascending start — items with equal starts keep the order of the
input, i.e. the clip / transition / generator concatenation order. -/
def stableSortByStart : List FcpTrackItem → List FcpTrackItem
  | [] => []
  | x :: xs => stableInsert x (stableSortByStart xs)

/-- Sortedness by ascending start. -/
def sortedByStart (l : List FcpTrackItem) : Prop :=
  l.Pairwise (fun a b => a.start ≤ b.start)

/-- The display name of a track child (used to compare child orders in the
ordering counterexample). -/
def Composable.nameOf : Composable → String
  | .clip c => c.name
  | .gap _ => ""
  | .transition t => t.name

/-- Claim-side definition (spec wording for the working-rate claim): the
rate of the first clip found in the first video or audio track, in that
scan order — video tracks before audio tracks, and within a track the
first clip child wherever it sits — with 24 fps as the default. -/
def specFirstClipRate (tl : Timeline) : ℚ :=
  let rec firstClipRate : List Composable → Option ℚ
    | [] => none
    | Composable.clip c :: rest =>
      (match c.duration with
       | some d => some d.rate
       | none => firstClipRate rest)
    | _ :: rest => firstClipRate rest
  let rec scanTracks : List OtioTrack → Option ℚ
    | [] => none
    | t :: ts =>
      match firstClipRate t.children with
      | some r => some r
      | none => scanTracks ts
  (scanTracks (tl.videoTracks ++ tl.audioTracks)).getD 24

/-- Per-track uniform-rate condition on an emitted schema track: every clip
item, transition item and generator item carries the rate, and so does
every clip item's file reference. -/
def Track.ratesUniform (t : Track) (r : Rate) : Prop :=
  (∀ c ∈ t.clipItem, c.rate = r ∧ ∀ f, c.file = some f → f.rate = r) ∧
  (∀ ti ∈ t.transitionItem, ti.rate = r) ∧
  (∀ g ∈ t.generatorItem, g.rate = r)

/-- All tracks of a sequence: the video group's then the audio group's. -/
def Sequence.tracksOf (s : Sequence) : List Track :=
  (match s.media.videoGrp with | some v => v.track | none => []) ++
  (match s.media.audioGrp with | some a => a.track | none => [])

/-- Uniform-rate condition on a whole emitted document. -/
def XMEML.ratesUniform (xm : XMEML) (r : Rate) : Prop :=
  ∀ s ∈ xm.sequence, s.rate = r ∧ ∀ t ∈ s.tracksOf, t.ratesUniform r

/-- The first video track of an emitted document, when present. -/
def firstVideoTrack (xm : XMEML) : Option Track :=
  match xm.sequence with
  | s :: _ =>
    (match s.media.videoGrp with
     | some v => v.track.head?
     | none => none)
  | [] => none

/-- The list of canonical-rate (timebase, NTSC flag) pairs: the decoded fps
values are 23.976, 24, 25, 29.97, 30, 50, 59.94 and 60. -/
def canonicalRatePairs : List Rate :=
  [{ timebase := 24, ntsc := true }, { timebase := 24, ntsc := false },
   { timebase := 25, ntsc := false }, { timebase := 30, ntsc := true },
   { timebase := 30, ntsc := false }, { timebase := 50, ntsc := false },
   { timebase := 60, ntsc := true }, { timebase := 60, ntsc := false }]

/-- Claim-side definition (spec wording for the sanitization claim): every
space becomes an underscore, every character outside the keep class is
removed, and an empty result is replaced by "file". -/
def sanitizeSpec (s : String) : String :=
  let r := s.data.filterMap (fun c =>
    if c = ' ' then some '_'
    else if sanitizeKeep c then some c
    else none)
  if r = [] then "file" else String.mk r

/-- The 24 fps non-drop rate element. -/
def rate24 : Rate := { timebase := 24, ntsc := false }

/-- Ordering counterexample, clip item: start 2. -/
def ceClipC1 : ClipItem := { name := "C", start := 2 }

/-- Ordering counterexample, transition item: start 2, tied with the clip. -/
def ceTransC1 : TransitionItem := { name := "T", start := 2 }

/-- Ordering counterexample, generator item: start 1. -/
def ceGenC1 : GeneratorItem := { name := "G", start := 1 }

/-- Ordering counterexample: one track holding the three items above. -/
def ceTrackC1 : Track :=
  { clipItem := [ceClipC1], transitionItem := [ceTransC1],
    generatorItem := [ceGenC1] }

/-- Failure-policy counterexample: a track whose only clip item embeds a
nested sequence — the spec's example of an item the engine cannot fully
resolve. -/
def ceTrackC3 : Track :=
  { clipItem := [{ name := "Nested", duration := 50, rate := rate24,
                   start := 0, endPos := 50, inPoint := 0, outPoint := 50,
                   sequence := some { name := "Inner" } }] }

/-- A missing media reference as the decoder and tests construct it. -/
def missingRef : MediaReference := MediaReference.missing "" none

/-- A [v, v+d) source range at 24 fps. -/
def srAt24 (v d : ℚ) : TimeRange :=
  { startTime := { value := v, rate := 24 }, duration := { value := d, rate := 24 } }

/-- Gap-elision input, first 50-frame clip. -/
def clipG1 : Clip :=
  { name := "Clip 1", mediaRef := some missingRef, sourceRange := some (srAt24 0 50) }

/-- Gap-elision input, second 50-frame clip. -/
def clipG2 : Clip :=
  { name := "Clip 2", mediaRef := some missingRef, sourceRange := some (srAt24 0 50) }

/-- Gap-elision input: clip(0,50), gap(25), clip(50) on one video track. -/
def tlGap : Timeline :=
  { name := "Timeline with Gaps",
    tracks := [{ name := "Video 1", kind := trackKindVideo,
                 children := [Composable.clip clipG1,
                              Composable.gap { duration := { value := 25, rate := 24 } },
                              Composable.clip clipG2] }] }

/-- The file reference the encoder emits for a missing media reference at
24 fps: empty name sanitizes to the "file" fallback. -/
def fileOfMissing24 : File :=
  { id := "file-file", name := "", pathURL := "", rate := rate24, duration := 0 }

/-- Gap-elision expected first clip item: frames [0, 50). -/
def ciGap1 : ClipItem :=
  { name := "Clip 1", duration := 50, rate := rate24, start := 0, endPos := 50,
    inPoint := 0, outPoint := 50, enabled := some true,
    file := some fileOfMissing24 }

/-- Gap-elision expected second clip item: the 25-frame gap is elided and
the clip lands at frames [75, 125). -/
def ciGap2 : ClipItem :=
  { name := "Clip 2", duration := 50, rate := rate24, start := 75, endPos := 125,
    inPoint := 0, outPoint := 50, enabled := some true,
    file := some fileOfMissing24 }

/-- Media-reference counterexample: a clip holding a generator reference
(neither an external-file nor a missing reference) and a source range. -/
def ceClipC7 : Clip :=
  { name := "Slug", mediaRef := some (MediaReference.generator "Slug" "Slug" none),
    sourceRange := some (srAt24 0 50) }

/-- The clip item the encoder emits for the reference-kind counterexample:
conversion succeeds, with a file reference whose path URL is empty. -/
def ceClipItemC7 : ClipItem :=
  { name := "Slug", duration := 50, rate := rate24, start := 0, endPos := 50,
    inPoint := 0, outPoint := 50, enabled := some true,
    file := some { id := "file-Slug", name := "Slug", pathURL := "",
                   rate := rate24, duration := 0 } }

/-- Working-rate counterexample, 30 fps clip. -/
def clipAt30 : Clip :=
  { name := "v", mediaRef := some missingRef,
    sourceRange := some { startTime := { value := 0, rate := 30 },
                          duration := { value := 50, rate := 30 } } }

/-- Working-rate counterexample, 25 fps clip. -/
def clipAt25 : Clip :=
  { name := "a", mediaRef := some missingRef,
    sourceRange := some { startTime := { value := 0, rate := 25 },
                          duration := { value := 50, rate := 25 } } }

/-- Working-rate counterexample: the first video track starts with a gap
followed by a 30 fps clip; the audio track starts with a 25 fps clip. -/
def tlRateCE : Timeline :=
  { name := "tl",
    tracks := [{ name := "V1", kind := trackKindVideo,
                 children := [Composable.gap { duration := { value := 10, rate := 24 } },
                              Composable.clip clipAt30] },
               { name := "A1", kind := trackKindAudio,
                 children := [Composable.clip clipAt25] }] }

/-- Working-rate witness input: a single video track led by a 24 fps clip. -/
def tlRateW : Timeline :=
  { name := "w",
    tracks := [{ name := "V1", kind := trackKindVideo,
                 children := [Composable.clip clipG1] }] }

/-- The document the encoder emits for the working-rate witness input. -/
def xmRateW : XMEML :=
  match Encoder.encode (some tlRateW) with
  | Except.ok xm => xm
  | Except.error _ => {}

/-- Generator-routing counterexample: a clip flagged as generator-derived
in metadata whose duration does not resolve (no source range, and a
generator reference without an available range). -/
def ceClipC9 : Clip :=
  { name := "Slug", mediaRef := some (MediaReference.generator "Slug" "Slug" none),
    sourceRange := none, metadata := [("fcp7xml_generator", MetaValue.b true)] }

/-- Generator-routing counterexample at document level: one video track
holding only the flagged clip. -/
def tlC9 : Timeline :=
  { name := "tl9",
    tracks := [{ name := "V1", kind := trackKindVideo,
                 children := [Composable.clip ceClipC9] }] }

/-- Generator-routing witness input: a generator-reference clip without the
metadata flag but with a source range. -/
def wClipC9 : Clip :=
  { name := "Bars", mediaRef := some (MediaReference.generator "Bars" "Bars" none),
    sourceRange := some (srAt24 0 10) }

/-- Enabled-flag witness input: a disabled track with one enabled clip and
one disabled generator-derived clip. -/
def wTrackC10 : OtioTrack :=
  { name := "V1", kind := trackKindVideo, enabled := false,
    children := [Composable.clip clipG1,
                 Composable.clip { name := "Gen", mediaRef := some missingRef,
                                   sourceRange := some (srAt24 0 5),
                                   metadata := [("fcp7xml_generator", MetaValue.b true)],
                                   enabled := false }] }

/-- The schema track the encoder emits for the enabled-flag witness. -/
def wFtC10 : Track :=
  match Encoder.convertTrack wTrackC10 rate24 with
  | Except.ok ft => ft
  | Except.error _ => {}

/-- Nested-sequence witness item for the failure-policy claim. -/
def wNestedItem : ClipItem :=
  { name := "Nested", duration := 50, rate := rate24, start := 0, endPos := 50,
    inPoint := 0, outPoint := 50, sequence := some { name := "Inner" } }

/-! ## Properties of the exchange sort -/

theorem selectPass_length (x : FcpTrackItem) (l : List FcpTrackItem) :
    (selectPass x l).2.length = l.length := by
  induction l generalizing x with
  | nil => simp [selectPass]
  | cons y ys ih =>
    simp only [selectPass]
    split
    · simpa using ih y
    · simpa using ih x

theorem selectPass_perm (x : FcpTrackItem) (l : List FcpTrackItem) :
    List.Perm ((selectPass x l).1 :: (selectPass x l).2) (x :: l) := by
  induction l generalizing x with
  | nil => simp [selectPass]
  | cons y ys ih =>
    simp only [selectPass]
    split
    · exact (List.Perm.swap x (selectPass y ys).1 (selectPass y ys).2).trans
        ((ih y).cons x)
    · exact (List.Perm.swap y (selectPass x ys).1 (selectPass x ys).2).trans
        (((ih x).cons y).trans (List.Perm.swap x y ys))

theorem selectPass_min (x : FcpTrackItem) (l : List FcpTrackItem) :
    (selectPass x l).1.start ≤ x.start ∧
      ∀ z ∈ (selectPass x l).2, (selectPass x l).1.start ≤ z.start := by
  induction l generalizing x with
  | nil => simp [selectPass]
  | cons y ys ih =>
    simp only [selectPass]
    split
    case isTrue h =>
      obtain ⟨h1, h2⟩ := ih y
      refine ⟨h1.trans (le_of_lt h), ?_⟩
      intro z hz
      rcases List.mem_cons.mp hz with rfl | hz
      · exact h1.trans (le_of_lt h)
      · exact h2 z hz
    case isFalse h =>
      obtain ⟨h1, h2⟩ := ih x
      refine ⟨h1, ?_⟩
      intro z hz
      rcases List.mem_cons.mp hz with rfl | hz
      · exact h1.trans (not_lt.mp h)
      · exact h2 z hz

theorem exchangeSortF_perm :
    ∀ (n : Nat) (l : List FcpTrackItem), l.length ≤ n →
      List.Perm (exchangeSortF n l) l := by
  intro n
  induction n with
  | zero =>
    intro l _
    simp [exchangeSortF]
  | succ n ih =>
    intro l h
    match l with
    | [] => simp [exchangeSortF]
    | x :: xs =>
      simp only [exchangeSortF]
      have hlen : (selectPass x xs).2.length ≤ n := by
        rw [selectPass_length]
        simpa using h
      exact ((ih _ hlen).cons _).trans (selectPass_perm x xs)

theorem exchangeSortF_sorted :
    ∀ (n : Nat) (l : List FcpTrackItem), l.length ≤ n →
      sortedByStart (exchangeSortF n l) := by
  intro n
  induction n with
  | zero =>
    intro l h
    have hl : l = [] := List.length_eq_zero.mp (Nat.le_zero.mp h)
    subst hl
    simp [exchangeSortF, sortedByStart]
  | succ n ih =>
    intro l h
    match l with
    | [] => simp [exchangeSortF, sortedByStart]
    | x :: xs =>
      simp only [exchangeSortF, sortedByStart]
      have hlen : (selectPass x xs).2.length ≤ n := by
        rw [selectPass_length]
        simpa using h
      refine List.Pairwise.cons ?_ (ih _ hlen)
      intro z hz
      have hz2 : z ∈ (selectPass x xs).2 :=
        (exchangeSortF_perm n _ hlen).mem_iff.mp hz
      exact (selectPass_min x xs).2 z hz2

theorem exchangeSort_perm (l : List FcpTrackItem) :
    List.Perm (exchangeSort l) l :=
  exchangeSortF_perm l.length l le_rfl

theorem exchangeSort_sorted (l : List FcpTrackItem) :
    sortedByStart (exchangeSort l) :=
  exchangeSortF_sorted l.length l le_rfl

theorem exchangeSort_length (l : List FcpTrackItem) :
    (exchangeSort l).length = l.length :=
  (exchangeSort_perm l).length_eq

theorem trackItems_length (t : Track) :
    (trackItems t).length =
      t.clipItem.length + t.transitionItem.length + t.generatorItem.length := by
  simp [trackItems, Nat.add_assoc]

/-! ## Properties of the encoder -/

theorem convertMediaReference_rate (ref : MediaReference) (r : Rate) :
    (Encoder.convertMediaReference ref r).rate = r := by
  cases ref with
  | external n url ar =>
    cases ar with
    | none =>
      simp only [Encoder.convertMediaReference]
      split <;> rfl
    | some tr =>
      simp only [Encoder.convertMediaReference]
      split <;> rfl
  | missing n ar => rfl
  | generator n k ar => rfl
  | imageSeq n b p sfx sf st rt pad ar md pol => rfl

theorem convertClip_fields (c : Clip) (r : Rate) (pos : Int) (ci : ClipItem)
    (h : Encoder.convertClip c r pos = Except.ok ci) :
    ci.rate = r ∧ ci.enabled = some c.enabled ∧
      ci.file = c.mediaRef.map (fun ref => Encoder.convertMediaReference ref r) := by
  unfold Encoder.convertClip at h
  cases hsr : Encoder.clipSourceRange c with
  | error e => rw [hsr] at h; simp [Except.map] at h
  | ok sr =>
    rw [hsr] at h
    simp only [Except.map, Except.ok.injEq] at h
    subst h
    exact ⟨rfl, rfl, rfl⟩

theorem convertToGenerator_fields (c : Clip) (r : Rate) (pos : Int)
    (g : GeneratorItem) (h : Encoder.convertToGenerator c r pos = some g) :
    g.rate = r ∧ g.enabled = some c.enabled := by
  unfold Encoder.convertToGenerator at h
  split at h
  · split at h
    · injection h with h
      subst h
      exact ⟨rfl, rfl⟩
    · exact absurd h (by simp)
  · exact absurd h (by simp)

theorem convertTransitionToItem_rate (t : Transition) (r : Rate) (pos : Int) :
    (Encoder.convertTransitionToItem t r pos).rate = r := by
  unfold Encoder.convertTransitionToItem
  split <;> split <;> rfl

theorem convertChildren_preserve (r : Rate)
    (P : ClipItem → Prop) (Q : GeneratorItem → Prop) (R : TransitionItem → Prop)
    (hP : ∀ c pos ci, Encoder.convertClip c r pos = Except.ok ci → P ci)
    (hQ : ∀ c pos g, Encoder.convertToGenerator c r pos = some g → Q g)
    (hR : ∀ t pos, R (Encoder.convertTransitionToItem t r pos)) :
    ∀ (children : List Composable) (pos : Int) (acc ft : Track),
      Encoder.convertChildren r children pos acc = Except.ok ft →
      (∀ ci ∈ acc.clipItem, P ci) → (∀ g ∈ acc.generatorItem, Q g) →
      (∀ ti ∈ acc.transitionItem, R ti) →
      ft.enabled = acc.enabled ∧ (∀ ci ∈ ft.clipItem, P ci) ∧
        (∀ g ∈ ft.generatorItem, Q g) ∧ (∀ ti ∈ ft.transitionItem, R ti) := by
  intro children
  induction children with
  | nil =>
    intro pos acc ft h hc hg ht
    simp only [Encoder.convertChildren, Except.ok.injEq] at h
    subst h
    exact ⟨rfl, hc, hg, ht⟩
  | cons child rest ih =>
    intro pos acc ft h hc hg ht
    cases child with
    | clip item =>
      simp only [Encoder.convertChildren] at h
      cases hgen : Encoder.convertToGenerator item r pos with
      | some genItem =>
        simp only [hgen] at h
        cases hdur : item.duration with
        | some dur =>
          simp only [hdur] at h
          refine ih (pos + truncQ dur.value)
            { acc with generatorItem := acc.generatorItem ++ [genItem] } ft h hc ?_ ht
          intro g hgmem
          rcases List.mem_append.mp hgmem with hgmem | hgmem
          · exact hg g hgmem
          · rw [List.mem_singleton.mp hgmem]
            exact hQ item pos genItem hgen
        | none => simp [hdur] at h
      | none =>
        simp only [hgen] at h
        cases hclip : Encoder.convertClip item r pos with
        | error e => simp [hclip] at h
        | ok clipItem =>
          simp only [hclip] at h
          cases hdur : item.duration with
          | some dur =>
            simp only [hdur] at h
            refine ih (pos + truncQ dur.value)
              { acc with clipItem := acc.clipItem ++ [clipItem] } ft h ?_ hg ht
            intro ci hcmem
            rcases List.mem_append.mp hcmem with hcmem | hcmem
            · exact hc ci hcmem
            · rw [List.mem_singleton.mp hcmem]
              exact hP item pos clipItem hclip
          | none => simp [hdur] at h
    | transition item =>
      simp only [Encoder.convertChildren] at h
      refine ih _
        { acc with transitionItem :=
            acc.transitionItem ++ [Encoder.convertTransitionToItem item r pos] }
        ft h hc hg ?_
      intro ti htmem
      rcases List.mem_append.mp htmem with htmem | htmem
      · exact ht ti htmem
      · rw [List.mem_singleton.mp htmem]
        exact hR item pos
    | gap item =>
      simp only [Encoder.convertChildren] at h
      exact ih _ _ _ h hc hg ht

theorem convertTrack_preserve (r : Rate)
    (P : ClipItem → Prop) (Q : GeneratorItem → Prop) (R : TransitionItem → Prop)
    (hP : ∀ c pos ci, Encoder.convertClip c r pos = Except.ok ci → P ci)
    (hQ : ∀ c pos g, Encoder.convertToGenerator c r pos = some g → Q g)
    (hR : ∀ t pos, R (Encoder.convertTransitionToItem t r pos))
    (tr : OtioTrack) (ft : Track)
    (h : Encoder.convertTrack tr r = Except.ok ft) :
    ft.enabled = some tr.enabled ∧ (∀ ci ∈ ft.clipItem, P ci) ∧
      (∀ g ∈ ft.generatorItem, Q g) ∧ (∀ ti ∈ ft.transitionItem, R ti) := by
  have := convertChildren_preserve r P Q R hP hQ hR tr.children 0
    { enabled := some tr.enabled, locked := none,
      clipItem := [], transitionItem := [], generatorItem := [] } ft h
    (by simp) (by simp) (by simp)
  exact this

theorem convertTrack_ratesUniform (r : Rate) (tr : OtioTrack) (ft : Track)
    (h : Encoder.convertTrack tr r = Except.ok ft) : ft.ratesUniform r := by
  have := convertTrack_preserve r
    (fun ci => ci.rate = r ∧ ∀ f, ci.file = some f → f.rate = r)
    (fun g => g.rate = r) (fun ti => ti.rate = r)
    (fun c pos ci hci => by
      obtain ⟨h1, _, h3⟩ := convertClip_fields c r pos ci hci
      refine ⟨h1, ?_⟩
      intro f hf
      rw [h3] at hf
      cases hm : c.mediaRef with
      | none => rw [hm] at hf; simp [Option.map] at hf
      | some ref =>
        rw [hm] at hf
        simp only [Option.map, Option.some.injEq] at hf
        rw [← hf]
        exact convertMediaReference_rate ref r)
    (fun c pos g hgen => (convertToGenerator_fields c r pos g hgen).1)
    (fun t pos => convertTransitionToItem_rate t r pos)
    tr ft h
  exact ⟨this.2.1, this.2.2.2, this.2.2.1⟩

theorem convertTrackList_mem (r : Rate) :
    ∀ (ts : List OtioTrack) (out : List Track),
      Encoder.convertTrackList r ts = Except.ok out →
      ∀ ft ∈ out, ∃ t, Encoder.convertTrack t r = Except.ok ft := by
  intro ts
  induction ts with
  | nil =>
    intro out h
    simp only [Encoder.convertTrackList, Except.ok.injEq] at h
    subst h
    simp
  | cons t ts ih =>
    intro out h
    simp only [Encoder.convertTrackList] at h
    cases ht : Encoder.convertTrack t r with
    | error e => rw [ht] at h; exact absurd h (by simp)
    | ok ft0 =>
      rw [ht] at h
      cases hts : Encoder.convertTrackList r ts with
      | error e => rw [hts] at h; exact absurd h (by simp)
      | ok fts =>
        rw [hts] at h
        simp only [Except.ok.injEq] at h
        subst h
        intro ft hft
        rcases List.mem_cons.mp hft with rfl | hft
        · exact ⟨t, ht⟩
        · exact ih fts hts ft hft

theorem tracksOf_groups (vts ats : List Track) (nm : String) (dur : Int)
    (r : Rate) :
    Sequence.tracksOf
      { name := nm, duration := dur, rate := r,
        media :=
          { videoGrp := if vts ≠ [] then some { track := vts } else none,
            audioGrp := if ats ≠ [] then some { track := ats } else none } } =
      vts ++ ats := by
  by_cases hv : vts = [] <;> by_cases ha : ats = [] <;>
    simp [Sequence.tracksOf, hv, ha]

theorem sanitize_foldl (l acc : List Char) :
    l.foldl
      (fun acc r =>
        if sanitizeKeep r then acc ++ [r]
        else if r = ' ' then acc ++ ['_']
        else acc) acc =
      acc ++ l.filterMap (fun c =>
        if c = ' ' then some '_'
        else if sanitizeKeep c then some c
        else none) := by
  induction l generalizing acc with
  | nil => simp
  | cons c l ih =>
    simp only [List.foldl_cons, List.filterMap_cons]
    by_cases hsp : c = ' '
    · subst hsp
      have hk : sanitizeKeep ' ' = false := rfl
      simp [hk, ih]
    · cases hk : sanitizeKeep c
      · simp [hk, hsp, ih]
      · simp [hk, hsp, ih]

theorem convertTracks_rate_uniform (tl : Timeline) (fps : ℚ) (n : Bool)
    (seq : Sequence) (h : Encoder.convertTracks tl fps n = Except.ok seq) :
    seq.rate = { timebase := Encoder.timebaseOf fps n, ntsc := n } ∧
      ∀ t ∈ seq.tracksOf, t.ratesUniform seq.rate := by
  simp only [Encoder.convertTracks] at h
  generalize hr0 : ({ timebase := Encoder.timebaseOf fps n, ntsc := n } : Rate) = r0 at h ⊢
  cases hdur : tl.durationRT with
  | none => simp [hdur] at h
  | some duration =>
    simp only [hdur] at h
    cases hv : Encoder.convertTrackList r0 tl.videoTracks with
    | error e => simp [hv] at h
    | ok vts =>
      simp only [hv] at h
      cases ha : Encoder.convertTrackList r0 tl.audioTracks with
      | error e => simp [ha] at h
      | ok ats =>
        simp only [ha, Except.ok.injEq] at h
        subst h
        refine ⟨rfl, ?_⟩
        rw [show Sequence.tracksOf _ = vts ++ ats from tracksOf_groups vts ats tl.name (truncQ duration.value) r0]
        intro t ht
        rcases List.mem_append.mp ht with ht | ht
        · obtain ⟨t0, ht0⟩ := convertTrackList_mem r0 tl.videoTracks vts hv t ht
          exact convertTrack_ratesUniform r0 t0 t ht0
        · obtain ⟨t0, ht0⟩ := convertTrackList_mem r0 tl.audioTracks ats ha t ht
          exact convertTrack_ratesUniform r0 t0 t ht0

/-! ## Claims -/

/-- C1 (counterexample): with a clip at start 2, a transition at start 2
and a generator at start 1 on one track, the decoded child order is
generator, transition, clip — the tied clip and transition come out in
transition-before-clip order, contradicting the claimed stable
clip-before-transition tie-break (the exchange sort's swap with the
later-starting generator reverses the tied pair). -/
theorem C1_counterexample :
    (Decoder.convertTrack ceTrackC1 rate24 trackKindVideo 0).children.map
        Composable.nameOf = ["G", "T", "C"] ∧
    ((stableSortByStart (trackItems ceTrackC1)).map
        (Decoder.itemToComposable rate24)).map Composable.nameOf = ["G", "C", "T"] ∧
    (Decoder.convertTrack ceTrackC1 rate24 trackKindVideo 0).children ≠
      (stableSortByStart (trackItems ceTrackC1)).map
        (Decoder.itemToComposable rate24) := by
  refine ⟨rfl, rfl, fun hEq => ?_⟩
  have h := congrArg (List.map Composable.nameOf) hEq
  rw [show (Decoder.convertTrack ceTrackC1 rate24 trackKindVideo 0).children.map
      Composable.nameOf = ["G", "T", "C"] from rfl] at h
  rw [show ((stableSortByStart (trackItems ceTrackC1)).map
      (Decoder.itemToComposable rate24)).map Composable.nameOf = ["G", "C", "T"]
      from rfl] at h
  exact absurd h (by decide)

/-- C1 (amended): the decoded track's children are the concatenated clip,
transition and generator lists run through the code's exchange sort and
converted in order; that order is ascending by start and is a permutation
of the concatenation, but the sort is not stable, so equal-start items need
not keep the clip-before-transition-before-generator order. -/
theorem C1_order (t : Track) (rate : Rate) (kind : String) (index : Nat) :
    (Decoder.convertTrack t rate kind index).children =
      (exchangeSort (trackItems t)).map (Decoder.itemToComposable rate) ∧
    sortedByStart (exchangeSort (trackItems t)) ∧
    List.Perm (exchangeSort (trackItems t)) (trackItems t) :=
  ⟨rfl, exchangeSort_sorted _, exchangeSort_perm _⟩

/-- C2: decoding each canonical (timebase, NTSC flag) pair to its effective
fps and re-encoding that fps — NTSC classification within 0.01 of the three
canonical NTSC values, timebase by rounding for drop-frame and truncation
otherwise — reproduces the original pair. -/
theorem C2_rate_roundtrip :
    ∀ p ∈ canonicalRatePairs, encodeRateOfFps (rateToFrameRate p) = p := by
  intro p hp
  fin_cases hp <;>
  · simp only [canonicalRatePairs, rateToFrameRate, encodeRateOfFps,
      Encoder.timebaseOf, isNTSCRate, List.any_cons, List.any_nil, absQ,
      truncQ, Rate.mk.injEq, if_true, if_false, Bool.or_eq_true,
      decide_eq_true_eq]
    norm_num

/-- C2 witness: the 29.97 drop-frame pair (timebase 30, NTSC) survives the
round trip. -/
theorem C2_rate_roundtrip_witness :
    ({ timebase := 30, ntsc := true } : Rate) ∈ canonicalRatePairs ∧
      encodeRateOfFps (rateToFrameRate { timebase := 30, ntsc := true }) =
        { timebase := 30, ntsc := true } :=
  ⟨by decide, C2_rate_roundtrip _ (by decide)⟩

/-- C3 (counterexample): a track whose only clip item embeds a nested
sequence — the engine cannot resolve it — decodes to ONE child, a
placeholder clip with a missing media reference and the nested-sequence
metadata flags; the item is not dropped from the decoded track. -/
theorem C3_counterexample :
    (Decoder.convertTrack ceTrackC3 rate24 trackKindVideo 0).children.length = 1 ∧
    ∃ c, (Decoder.convertTrack ceTrackC3 rate24 trackKindVideo 0).children =
          [Composable.clip c] ∧
        c.mediaRef = some (MediaReference.missing "" none) ∧
        List.lookup "fcp7xml_nested_sequence" c.metadata =
          some (MetaValue.b true) :=
  ⟨rfl, _, rfl, rfl, rfl⟩

/-- C3 (amended): per-item translation is total — the decoded track always
has exactly one child per collected item, an item embedding a nested
sequence degrades to a placeholder clip (missing media, metadata flags)
instead of being dropped or failing, and the decode as a whole fails only
on the document-level conditions (malformed XML, no sequence). -/
theorem C3_no_item_dropped :
    (∀ (t : Track) (r : Rate) (k : String) (i : Nat),
      (Decoder.convertTrack t r k i).children.length =
        t.clipItem.length + t.transitionItem.length + t.generatorItem.length) ∧
    (∀ (item : ClipItem) (r : Rate) (ns : NestedSequence),
      item.sequence = some ns →
      Decoder.convertClipItem item r = Composable.clip
        { name := item.name, mediaRef := some (MediaReference.missing "" none),
          sourceRange := some
            { startTime := { value := (item.inPoint : ℚ),
                             rate := rateToFrameRate item.rate },
              duration := { value := ((item.outPoint - item.inPoint : Int) : ℚ),
                            rate := rateToFrameRate item.rate } },
          metadata := [("fcp7xml_nested_sequence", MetaValue.b true),
                       ("fcp7xml_sequence_name", MetaValue.s ns.name)],
          markers := [], enabled := true }) ∧
    (∀ xm : XMEML,
      (∃ e, Decoder.decode (some xm) = Except.error e) ↔ xm.sequence = []) := by
  refine ⟨?_, ?_, ?_⟩
  · intro t r k i
    show ((exchangeSort (trackItems t)).map (Decoder.itemToComposable r)).length = _
    rw [List.length_map, exchangeSort_length, trackItems_length]
  · intro item r ns h
    unfold Decoder.convertClipItem
    rw [h]
    simp [rateToFrameRate]
  · intro xm
    constructor
    · rintro ⟨e, he⟩
      cases hs : xm.sequence with
      | nil => rfl
      | cons a rest => simp [Decoder.decode, hs] at he
    · intro hs
      exact ⟨DecodeError.noSequenceFound, by simp [Decoder.decode, hs]⟩

/-- C3 witness: the placeholder translation applied to a concrete
nested-sequence clip item. -/
theorem C3_no_item_dropped_witness :
    wNestedItem.sequence = some { name := "Inner" } ∧
      Decoder.convertClipItem wNestedItem rate24 = Composable.clip
        { name := wNestedItem.name,
          mediaRef := some (MediaReference.missing "" none),
          sourceRange := some
            { startTime := { value := (wNestedItem.inPoint : ℚ),
                             rate := rateToFrameRate wNestedItem.rate },
              duration := { value := ((wNestedItem.outPoint - wNestedItem.inPoint : Int) : ℚ),
                            rate := rateToFrameRate wNestedItem.rate } },
          metadata := [("fcp7xml_nested_sequence", MetaValue.b true),
                       ("fcp7xml_sequence_name", MetaValue.s "Inner")],
          markers := [], enabled := true } :=
  ⟨rfl, C3_no_item_dropped.2.1 wNestedItem rate24 { name := "Inner" } rfl⟩

/-- C4 (counterexample): with a first video track starting gap-then-30fps-
clip and an audio track starting with a 25 fps clip, the claimed rule
(first clip found in the first video or audio track) gives 30 fps, but the
encoder's scan only inspects each track's FIRST child, skips the video
track entirely, and picks 25 fps from the audio track. -/
theorem C4_counterexample :
    specFirstClipRate tlRateCE = 30 ∧
    Encoder.pickRate tlRateCE = (25, false) ∧
    Encoder.workingRate tlRateCE = { timebase := 25, ntsc := false } := by
  have hn : isNTSCRate 25 = false := by
    simp only [isNTSCRate, List.any_cons, List.any_nil, absQ]
    norm_num
  refine ⟨rfl, ?_, ?_⟩
  · show ((25 : ℚ), isNTSCRate 25) = ((25 : ℚ), false)
    rw [hn]
  · show ({ timebase := Encoder.timebaseOf 25 (isNTSCRate 25),
            ntsc := isNTSCRate 25 } : Rate) = { timebase := 25, ntsc := false }
    rw [hn]
    rfl

/-- C4 (amended): the encoder picks one working rate for the whole sequence
— the duration rate of the FIRST CHILD of the first track (in timeline
stack order, video or audio alike) when that child is a clip with a
resolvable positive-rate duration, 24 fps otherwise — and every emitted
sequence rate, clip item, transition item, generator item and file
reference carries exactly that single rate. -/
theorem C4_single_working_rate (tl : Timeline) (xm : XMEML)
    (h : Encoder.encode (some tl) = Except.ok xm) :
    xm.ratesUniform (Encoder.workingRate tl) := by
  simp only [Encoder.encode, Encoder.convertTimeline] at h
  cases hseq : Encoder.convertTracks tl (Encoder.pickRate tl).1
      (Encoder.pickRate tl).2 with
  | error e => simp [hseq] at h
  | ok seq =>
    simp only [hseq, Except.ok.injEq] at h
    subst h
    intro s hs
    rw [List.mem_singleton.mp hs]
    obtain ⟨h1, h2⟩ := convertTracks_rate_uniform tl _ _ seq hseq
    have hw : Encoder.workingRate tl = seq.rate := by rw [h1]; rfl
    rw [hw]
    exact ⟨rfl, h2⟩

/-- C4 witness: a timeline led by a 24 fps clip encodes with every rate
field equal to the working rate. -/
theorem C4_single_working_rate_witness :
    Encoder.encode (some tlRateW) = Except.ok xmRateW ∧
      xmRateW.ratesUniform (Encoder.workingRate tlRateW) :=
  ⟨rfl, C4_single_working_rate tlRateW xmRateW rfl⟩

/-- C5: encoding clip(0,50) → gap(25) → clip(50) yields a track with
exactly two clip items and no other element; the gap advances the position
cursor by 25 frames but emits nothing, so the second clip item starts at
frame 75. -/
theorem C5_gap_elision :
    (Encoder.encode (some tlGap)).toOption.bind firstVideoTrack =
      some { enabled := some true, locked := none,
             clipItem := [ciGap1, ciGap2],
             transitionItem := [], generatorItem := [] } ∧
    ciGap2.start = 75 ∧ ciGap1.start = 0 := by
  have hn : isNTSCRate 24 = false := by
    simp only [isNTSCRate, List.any_cons, List.any_nil, absQ]
    norm_num
  have hp : Encoder.pickRate tlGap = ((24 : ℚ), false) := by
    show ((24 : ℚ), isNTSCRate 24) = ((24 : ℚ), false)
    rw [hn]
  have ht : Encoder.convertTimeline tlGap =
      match Encoder.convertTracks tlGap 24 false with
      | Except.error e => Except.error e
      | Except.ok sequence =>
        Except.ok { version := "5", sequence := [sequence] } := by
    unfold Encoder.convertTimeline
    rw [hp]
  refine ⟨?_, rfl, rfl⟩
  show (Encoder.convertTimeline tlGap).toOption.bind firstVideoTrack = _
  rw [ht]
  rfl

/-- C6: decode fails with the malformed-document condition when the
external tokenizer rejects the stream, fails with the no-sequence-found
condition when the root holds zero sequences, and otherwise translates
exactly the first sequence — trailing sibling sequences do not influence
the result. -/
theorem C6_document_gate :
    Decoder.decode none = Except.error DecodeError.malformedDocument ∧
    (∀ v : String,
      Decoder.decode (some { version := v, sequence := [] }) =
        Except.error DecodeError.noSequenceFound) ∧
    (∀ (v : String) (s : Sequence) (rest : List Sequence),
      Decoder.decode (some { version := v, sequence := s :: rest }) =
        Except.ok (Decoder.convertSequence s)) :=
  ⟨rfl, fun _ => rfl, fun _ _ _ => rfl⟩

/-- C7 (counterexample): converting a clip whose media reference is a
generator reference — neither an external-file nor a missing reference —
does NOT fail: it succeeds and emits a clip item whose file reference has
an empty path URL. -/
theorem C7_counterexample :
    Encoder.convertClip ceClipC7 rate24 0 = Except.ok ceClipItemC7 ∧
    ceClipItemC7.file =
      some { id := "file-Slug", name := "Slug", pathURL := "",
             rate := rate24, duration := 0 } :=
  ⟨rfl, rfl⟩

/-- C7 (amended): converting a media reference of unrecognized kind —
neither external nor missing — cannot fail: the encoder has no
MediaReferenceConversionFailed condition, and the default case emits a
file reference carrying the sanitized id, the reference's name, the
working rate and an empty path URL. -/
theorem C7_unrecognized_reference_total (ref : MediaReference) (r : Rate)
    (h1 : ref.isExternalRef = false) (h2 : ref.isMissingRef = false) :
    Encoder.convertMediaReference ref r =
      { id := "file-" ++ sanitizeID ref.refName, name := ref.refName,
        pathURL := "", rate := r, duration := 0 } := by
  cases ref with
  | external n url ar => simp [MediaReference.isExternalRef] at h1
  | missing n ar => simp [MediaReference.isMissingRef] at h2
  | generator n k ar => rfl
  | imageSeq n b p sfx sf st rt pad ar md pol => rfl

/-- C7 witness: the default case applied to a concrete generator
reference. -/
theorem C7_unrecognized_reference_total_witness :
    (MediaReference.generator "Slug" "Slug" none).isExternalRef = false ∧
    (MediaReference.generator "Slug" "Slug" none).isMissingRef = false ∧
    Encoder.convertMediaReference (MediaReference.generator "Slug" "Slug" none)
        rate24 =
      { id := "file-" ++
          sanitizeID (MediaReference.generator "Slug" "Slug" none).refName,
        name := (MediaReference.generator "Slug" "Slug" none).refName,
        pathURL := "", rate := rate24, duration := 0 } :=
  ⟨rfl, rfl, C7_unrecognized_reference_total _ rate24 rfl rfl⟩

/-- C8: the sanitization examples of the claim, and the general
characterization — spaces become underscores, characters outside the keep
class are removed, and an empty result falls back to "file". -/
theorem C8_sanitize :
    sanitizeID "" = "file" ∧ sanitizeID "with spaces" = "with_spaces" ∧
    sanitizeID "with!@#special" = "withspecial" ∧
    ∀ s, sanitizeID s = sanitizeSpec s := by
  refine ⟨rfl, rfl, rfl, ?_⟩
  intro s
  unfold sanitizeID sanitizeSpec
  rw [sanitize_foldl]
  rw [List.nil_append]

/-- C9 (counterexample): a clip whose metadata flags it generator-derived
but whose duration does not resolve is NOT routed to the generator list —
convertToGenerator rejects it although the flag is boolean true, and the
whole encode then fails on the unavailable timeline duration, so routing
is not decided solely by the metadata flag. -/
theorem C9_counterexample :
    List.lookup "fcp7xml_generator" ceClipC9.metadata =
      some (MetaValue.b true) ∧
    Encoder.convertToGenerator ceClipC9 rate24 0 = none ∧
    Encoder.encode (some tlC9) =
      Except.error EncodeError.timelineDurationUnavailable :=
  ⟨rfl, rfl, rfl⟩

/-- C9 (amended): a clip is emitted as a generator item exactly when its
metadata maps "fcp7xml_generator" to boolean true AND its duration
resolves; a clip without the true flag is never routed to the generator
list regardless of its media reference's kind; a successfully converted
clip item's file reference is the converted media reference, and the
conversion of a generator reference always has an empty path URL. -/
theorem C9_generator_routing :
    (∀ (c : Clip) (r : Rate) (pos : Int),
      (Encoder.convertToGenerator c r pos).isSome ↔
        (List.lookup "fcp7xml_generator" c.metadata = some (MetaValue.b true) ∧
         c.duration.isSome)) ∧
    (∀ (c : Clip) (r : Rate) (pos : Int),
      List.lookup "fcp7xml_generator" c.metadata ≠ some (MetaValue.b true) →
      Encoder.convertToGenerator c r pos = none) ∧
    (∀ (c : Clip) (r : Rate) (pos : Int) (ci : ClipItem),
      Encoder.convertClip c r pos = Except.ok ci →
      ci.file = c.mediaRef.map (fun ref => Encoder.convertMediaReference ref r)) ∧
    (∀ (n k : String) (ar : Option TimeRange) (r : Rate),
      (Encoder.convertMediaReference (MediaReference.generator n k ar) r).pathURL
        = "") := by
  refine ⟨?_, ?_, ?_, ?_⟩
  · intro c r pos
    unfold Encoder.convertToGenerator
    cases hl : List.lookup "fcp7xml_generator" c.metadata with
    | none => simp
    | some v =>
      cases v with
      | b bv =>
        cases bv with
        | false => simp
        | true => cases hd : c.duration <;> simp [hd]
      | s sv => simp
      | i iv => simp
      | q qv => simp
      | dict d => simp
      | dicts l => simp
      | intMap m => simp
  · intro c r pos hne
    unfold Encoder.convertToGenerator
    cases hl : List.lookup "fcp7xml_generator" c.metadata with
    | none => rfl
    | some v =>
      cases v with
      | b bv =>
        cases bv with
        | false => rfl
        | true => exact absurd hl hne
      | s sv => rfl
      | i iv => rfl
      | q qv => rfl
      | dict d => rfl
      | dicts l => rfl
      | intMap m => rfl
  · intro c r pos ci h
    exact (convertClip_fields c r pos ci h).2.2
  · intro n k ar r
    rfl

/-- C9 witness: the routing facts applied to a generator-reference clip
without the metadata flag. -/
theorem C9_generator_routing_witness :
    Encoder.convertToGenerator wClipC9 rate24 0 = none ∧
      ((Encoder.convertToGenerator wClipC9 rate24 0).isSome ↔
        (List.lookup "fcp7xml_generator" wClipC9.metadata =
           some (MetaValue.b true) ∧ wClipC9.duration.isSome)) :=
  ⟨C9_generator_routing.2.1 wClipC9 rate24 0 (fun h => Option.noConfusion h),
   C9_generator_routing.1 wClipC9 rate24 0⟩

/-- C10: the encoder writes an explicit enabled flag on every element it
emits — the converted track's optional flag is always set to the model
track's enabled state, and every emitted clip item and generator item has
its optional flag set (to the source clip's enabled state, per the
item-level parts). -/
theorem C10_enabled_always_written :
    (∀ (tr : OtioTrack) (r : Rate) (ft : Track),
      Encoder.convertTrack tr r = Except.ok ft →
      ft.enabled = some tr.enabled ∧ (∀ ci ∈ ft.clipItem, ci.enabled.isSome) ∧
        (∀ g ∈ ft.generatorItem, g.enabled.isSome)) ∧
    (∀ (c : Clip) (r : Rate) (pos : Int) (ci : ClipItem),
      Encoder.convertClip c r pos = Except.ok ci →
      ci.enabled = some c.enabled) ∧
    (∀ (c : Clip) (r : Rate) (pos : Int) (g : GeneratorItem),
      Encoder.convertToGenerator c r pos = some g →
      g.enabled = some c.enabled) := by
  refine ⟨?_, ?_, ?_⟩
  · intro tr r ft h
    have hpres := convertTrack_preserve r (fun ci => ci.enabled.isSome)
      (fun g => g.enabled.isSome) (fun _ => True)
      (fun c pos ci hci => by
        simp [(convertClip_fields c r pos ci hci).2.1])
      (fun c pos g hg => by
        simp [(convertToGenerator_fields c r pos g hg).2])
      (fun _ _ => trivial) tr ft h
    exact ⟨hpres.1, hpres.2.1, hpres.2.2.1⟩
  · exact fun c r pos ci hci => (convertClip_fields c r pos ci hci).2.1
  · exact fun c r pos g hg => (convertToGenerator_fields c r pos g hg).2

/-- C10 witness: the enabled-flag facts applied to a concrete disabled
track holding an ordinary clip and a generator-derived clip. -/
theorem C10_enabled_always_written_witness :
    Encoder.convertTrack wTrackC10 rate24 = Except.ok wFtC10 ∧
      (wFtC10.enabled = some wTrackC10.enabled ∧
       (∀ ci ∈ wFtC10.clipItem, ci.enabled.isSome) ∧
       (∀ g ∈ wFtC10.generatorItem, g.enabled.isSome)) :=
  ⟨rfl, C10_enabled_always_written.1 wTrackC10 rate24 wFtC10 rfl⟩
